import Mathlib

/-!
# Endpoint availability monitor (`main.go`)

A shallow embedding of the monitor: the domain extractor, the prober's request
preparation, the health test with the statistics update, the startup
pre-registration, the probe cycles and the percentage of the report.

A Go `string` is a sequence of bytes. It is modelled as the list of its bytes,
each byte written as the `Char` with that code, so an ASCII literal is its own
model.
-/

namespace Fetch

/-- A Go string: the list of its bytes. -/
abbrev Str := List Char

/-! ## The parts of package `strings` the program relies on -/

/-- Search of `strings.Index` from position `i` on: the index of the first
occurrence of `sub` in `s`, where `s` starts at index `i` of the whole string,
or `-1`. -/
def strings_IndexFrom (sub : Str) : Str → Nat → Int
  | [], i => if sub = [] then (i : Int) else -1
  | c :: cs, i => if sub.isPrefixOf (c :: cs) then (i : Int) else strings_IndexFrom sub cs (i + 1)

/-- Go `strings.Index(s, sub)`: index of the first occurrence of `sub` in `s`,
or `-1` when there is none. -/
def strings_Index (s sub : Str) : Int := strings_IndexFrom sub s 0

/-- Search of `strings.LastIndex`: `last` is the latest occurrence seen so far. -/
def strings_LastIndexFrom (sub : Str) : Str → Nat → Int → Int
  | [], i, last => if sub = [] then (i : Int) else last
  | c :: cs, i, last =>
    strings_LastIndexFrom sub cs (i + 1) (if sub.isPrefixOf (c :: cs) then (i : Int) else last)

/-- Go `strings.LastIndex(s, sub)`: index of the last occurrence of `sub` in
`s`, or `-1` when there is none. -/
def strings_LastIndex (s sub : Str) : Int := strings_LastIndexFrom sub s 0 (-1)

/-- Go `strings.Contains(s, sub)`. -/
def strings_Contains (s sub : Str) : Bool := decide (0 ≤ strings_Index s sub)

/-- Go `strings.HasPrefix(s, p)`. -/
def strings_HasPrefix (s p : Str) : Bool := p.isPrefixOf s

/-- Go `strings.HasSuffix(s, p)`. -/
def strings_HasSuffix (s p : Str) : Bool := p.isSuffixOf s

/-- Go `strings.Cut(s, sep)`: the text before and after the first occurrence of
`sep`, and whether `sep` occurs; `(s, "", false)` when it does not. -/
def strings_Cut (s sep : Str) : Str × Str × Bool :=
  let i := strings_Index s sep
  if 0 ≤ i then (s.take i.toNat, s.drop (i.toNat + sep.length), true) else (s, [], false)

/-- Go `strings.Count(s, sub)` for a one-byte `sub`, the only use made of it:
the number of occurrences of the byte `b`. -/
def strings_CountByte (s : Str) (b : Char) : Nat := s.count b

/-- ASCII upper-casing of one byte. -/
def upperByte (c : Char) : Char :=
  if 'a'.toNat ≤ c.toNat ∧ c.toNat ≤ 'z'.toNat then Char.ofNat (c.toNat - 32) else c

/-- Go `strings.ToUpper(s)`. A string made of ASCII bytes only has its letters
`a`..`z` replaced by `A`..`Z`. A string with a byte of `0x80` or more is mapped
rune by rune through the Unicode case tables, which are not part of the
program: that mapping is the parameter `unicodeUpper`. -/
def strings_ToUpper (unicodeUpper : Str → Str) (s : Str) : Str :=
  if s.all (fun c => decide (c.toNat < 128)) then s.map upperByte else unicodeUpper s

/-! ## Package `net/url`: `url.Parse` -/

/-- The errors `url.Parse` reports. -/
inductive UrlError where
  | invalidControlCharacter
  | missingProtocolScheme
  | firstPathSegmentColon
  | invalidUserinfo
  | missingBracket
  | invalidPort (port : Str)
  | escapeError (s : Str)
  | invalidHost (s : Str)
  | emptyURL
  | invalidURIForRequest
  deriving DecidableEq, Repr

/-- The `encoding` modes of `net/url`. -/
inductive Encoding where
  | encodePath
  | encodePathSegment
  | encodeHost
  | encodeZone
  | encodeUserPassword
  | encodeQueryComponent
  | encodeFragment
  deriving DecidableEq, Repr

/-- Go `ishex`. -/
def ishex (c : Char) : Bool :=
  ('0' ≤ c ∧ c ≤ '9') ∨ ('a' ≤ c ∧ c ≤ 'f') ∨ ('A' ≤ c ∧ c ≤ 'F')

/-- Go `unhex`. -/
def unhex (c : Char) : Nat :=
  if '0' ≤ c ∧ c ≤ '9' then c.toNat - '0'.toNat
  else if 'a' ≤ c ∧ c ≤ 'f' then c.toNat - 'a'.toNat + 10
  else if 'A' ≤ c ∧ c ≤ 'F' then c.toNat - 'A'.toNat + 10
  else 0

/-- Go `shouldEscape(c, encodeHost)`, the only mode `unescape` asks about:
whether the byte may not stand unescaped in a host. -/
def shouldEscapeHost (c : Char) : Bool :=
  if ('a' ≤ c ∧ c ≤ 'z') ∨ ('A' ≤ c ∧ c ≤ 'Z') ∨ ('0' ≤ c ∧ c ≤ '9') then false
  else if c ∈ ['!', '$', '&', Char.ofNat 39, '(', ')', '*', '+', ',', ';', '=', ':', '[', ']',
      '<', '>', Char.ofNat 34] then false
  else if c ∈ ['-', '_', '.', '~'] then false
  else true

/-- First pass of Go `unescape(s, mode)`: the check that every `%` starts a
well-formed escape and, in a host, that no byte needs escaping. `none` when the
string passes. -/
def unescapeCheck (mode : Encoding) : Str → Option UrlError
  | [] => none
  | c :: cs =>
    if c = '%' then
      match cs with
      | h1 :: h2 :: tl =>
        if !(ishex h1 && ishex h2) then some (.escapeError [c, h1, h2])
        else if mode = .encodeHost ∧ unhex h1 < 8 ∧ [c, h1, h2] ≠ ['%', '2', '5'] then
          some (.escapeError [c, h1, h2])
        else if mode = .encodeZone ∧ [c, h1, h2] ≠ ['%', '2', '5']
            ∧ Char.ofNat (unhex h1 * 16 + unhex h2) ≠ ' '
            ∧ shouldEscapeHost (Char.ofNat (unhex h1 * 16 + unhex h2)) then
          some (.escapeError [c, h1, h2])
        else unescapeCheck mode tl
      | rest => some (.escapeError (c :: rest))
    else if (mode = .encodeHost ∨ mode = .encodeZone) ∧ c.toNat < 128 ∧ shouldEscapeHost c then
      some (.invalidHost [c])
    else unescapeCheck mode cs

/-- Second pass of Go `unescape(s, mode)`: every escape `%XY` is replaced by
the byte it stands for, and `+` by a blank in a query component. -/
def unescapeDecode (mode : Encoding) : Str → Str
  | [] => []
  | c :: cs =>
    if c = '%' then
      match cs with
      | h1 :: h2 :: tl => Char.ofNat (unhex h1 * 16 + unhex h2) :: unescapeDecode mode tl
      | rest => c :: rest
    else if c = '+' ∧ mode = .encodeQueryComponent then ' ' :: unescapeDecode mode cs
    else c :: unescapeDecode mode cs

/-- Go `unescape(s, mode)`. -/
def unescape (s : Str) (mode : Encoding) : Except UrlError Str :=
  match unescapeCheck mode s with
  | some e => .error e
  | none => .ok (unescapeDecode mode s)

/-- Go `url.Userinfo`: a user name and an optional password. -/
structure Userinfo where
  username : Str
  password : Option Str
  deriving DecidableEq, Repr

/-- Go `url.URL`, without the two encoding hints `RawPath` and `RawFragment`,
which are derived from `Path` and `Fragment` and read by nothing here. -/
structure URL where
  Scheme : Str := []
  Opaque : Str := []
  User : Option Userinfo := none
  Host : Str := []
  Path : Str := []
  OmitHost : Bool := false
  ForceQuery : Bool := false
  RawQuery : Str := []
  Fragment : Str := []
  deriving DecidableEq, Repr

/-- Loop of Go `getScheme`: `i` is the index of the next byte of `rawURL`. -/
def getSchemeFrom (rawURL : Str) : Str → Nat → Except UrlError (Str × Str)
  | [], _ => .ok ([], rawURL)
  | c :: cs, i =>
    if ('a' ≤ c ∧ c ≤ 'z') ∨ ('A' ≤ c ∧ c ≤ 'Z') then getSchemeFrom rawURL cs (i + 1)
    else if ('0' ≤ c ∧ c ≤ '9') ∨ c = '+' ∨ c = '-' ∨ c = '.' then
      if i = 0 then .ok ([], rawURL) else getSchemeFrom rawURL cs (i + 1)
    else if c = ':' then
      if i = 0 then .error .missingProtocolScheme
      else .ok (rawURL.take i, rawURL.drop (i + 1))
    else .ok ([], rawURL)

/-- Go `getScheme(rawURL)`: the scheme before the first `:` and the rest, or an
empty scheme and the whole text when the text does not start with a scheme. -/
def getScheme (rawURL : Str) : Except UrlError (Str × Str) := getSchemeFrom rawURL rawURL 0

/-- Go `validOptionalPort(port)`: `port` is empty or `:` followed by digits. -/
def validOptionalPort (port : Str) : Bool :=
  match port with
  | [] => true
  | c :: ds => c = ':' ∧ ds.all (fun b => decide ('0' ≤ b ∧ b ≤ '9'))

/-- Go `validUserinfo(s)`. -/
def validUserinfo (s : Str) : Bool :=
  s.all (fun r =>
    decide (('A' ≤ r ∧ r ≤ 'Z') ∨ ('a' ≤ r ∧ r ≤ 'z') ∨ ('0' ≤ r ∧ r ≤ '9')
      ∨ r ∈ ['-', '.', '_', ':', '~', '!', '$', '&', Char.ofNat 39, '(', ')', '*', '+', ',',
          ';', '=', '%', '@']))

/-- Go `parseHost(host)`: a host, bracketed IP literal or not, with an optional
port, unescaped. -/
def parseHost (host : Str) : Except UrlError Str :=
  if strings_HasPrefix host ['['] then
    let i := strings_LastIndex host [']']
    if i < 0 then .error .missingBracket
    else
      let colonPort := host.drop (i.toNat + 1)
      if !validOptionalPort colonPort then .error (.invalidPort colonPort)
      else
        let zone := strings_Index (host.take i.toNat) ['%', '2', '5']
        if 0 ≤ zone then
          match unescape (host.take zone.toNat) .encodeHost with
          | .error e => .error e
          | .ok host1 =>
            match unescape ((host.take i.toNat).drop zone.toNat) .encodeZone with
            | .error e => .error e
            | .ok host2 =>
              match unescape (host.drop i.toNat) .encodeHost with
              | .error e => .error e
              | .ok host3 => .ok (host1 ++ host2 ++ host3)
        else unescape host .encodeHost
  else
    let i := strings_LastIndex host [':']
    if i ≠ -1 ∧ !validOptionalPort (host.drop i.toNat) then
      .error (.invalidPort (host.drop i.toNat))
    else unescape host .encodeHost

/-- Go `parseAuthority(authority)`: the user information before the last `@`,
if any, and the host after it. -/
def parseAuthority (authority : Str) : Except UrlError (Option Userinfo × Str) :=
  let i := strings_LastIndex authority ['@']
  match (if i < 0 then parseHost authority else parseHost (authority.drop (i.toNat + 1))) with
  | .error e => .error e
  | .ok host =>
    if i < 0 then .ok (none, host)
    else
      let userinfo := authority.take i.toNat
      if !validUserinfo userinfo then .error .invalidUserinfo
      else if !strings_Contains userinfo [':'] then
        match unescape userinfo .encodeUserPassword with
        | .error e => .error e
        | .ok username => .ok (some ⟨username, none⟩, host)
      else
        match unescape (strings_Cut userinfo [':']).1 .encodeUserPassword with
        | .error e => .error e
        | .ok username =>
          match unescape (strings_Cut userinfo [':']).2.1 .encodeUserPassword with
          | .error e => .error e
          | .ok password => .ok (some ⟨username, some password⟩, host)

/-- ASCII lower-casing of one byte; a scheme holds ASCII bytes only, so this is
what `strings.ToLower` does to it. -/
def lowerByte (c : Char) : Char :=
  if 'A'.toNat ≤ c.toNat ∧ c.toNat ≤ 'Z'.toNat then Char.ofNat (c.toNat + 32) else c

/-- Last part of Go `parse`: the authority, when the rest starts with `//`, and
the path. -/
def parseTail (url : URL) (rest : Str) (viaRequest : Bool) : Except UrlError URL :=
  if (url.Scheme ≠ [] ∨ (!viaRequest ∧ !strings_HasPrefix rest ['/', '/', '/']))
      ∧ strings_HasPrefix rest ['/', '/'] then
    let i := strings_Index (rest.drop 2) ['/']
    let authority := if 0 ≤ i then (rest.drop 2).take i.toNat else rest.drop 2
    let rest := if 0 ≤ i then (rest.drop 2).drop i.toNat else []
    match parseAuthority authority with
    | .error e => .error e
    | .ok (user, host) =>
      match unescape rest .encodePath with
      | .error e => .error e
      | .ok path => .ok { url with User := user, Host := host, Path := path }
  else
    match unescape rest .encodePath with
    | .error e => .error e
    | .ok path =>
      .ok { url with
        OmitHost := decide (url.Scheme ≠ [] ∧ strings_HasPrefix rest ['/']), Path := path }

/-- Go `parse(rawURL, viaRequest)`: a URL without its fragment. -/
def parse (rawURL : Str) (viaRequest : Bool) : Except UrlError URL :=
  if rawURL.any (fun b => decide (b < ' ' ∨ b = Char.ofNat 127)) then
    .error .invalidControlCharacter
  else if rawURL = [] ∧ viaRequest then .error .emptyURL
  else if rawURL = ['*'] then .ok { Path := ['*'] }
  else
    match getScheme rawURL with
    | .error e => .error e
    | .ok (scheme, rest) =>
      let force := strings_HasSuffix rest ['?'] && strings_CountByte rest '?' == 1
      let url : URL :=
        { Scheme := scheme.map lowerByte
          ForceQuery := force
          RawQuery := if force then [] else (strings_Cut rest ['?']).2.1 }
      let rest := if force then rest.take (rest.length - 1) else (strings_Cut rest ['?']).1
      if !strings_HasPrefix rest ['/'] then
        if url.Scheme ≠ [] then .ok { url with Opaque := rest }
        else if viaRequest then .error .invalidURIForRequest
        else if strings_Contains (strings_Cut rest ['/']).1 [':'] then
          .error .firstPathSegmentColon
        else parseTail url rest viaRequest
      else parseTail url rest viaRequest

/-- Go `url.Parse(rawURL)`: the fragment after the first `#` is cut off, the
rest is parsed, and the fragment is unescaped. -/
def url_Parse (rawURL : Str) : Except UrlError URL :=
  match parse (strings_Cut rawURL ['#']).1 false with
  | .error e => .error e
  | .ok url =>
    if (strings_Cut rawURL ['#']).2.1 = [] then .ok url
    else
      match unescape (strings_Cut rawURL ['#']).2.1 .encodeFragment with
      | .error e => .error e
      | .ok frag => .ok { url with Fragment := frag }

/-! ## Package `net/http`: `http.NewRequest` -/

/-- Go's `error` values the program meets: a URL parse error, the invalid
method error of `http.NewRequest`, and an error of the dispatch of a request. -/
inductive GoError where
  | url (e : UrlError)
  | invalidMethod (method : Str)
  | transport (msg : Str)
  deriving DecidableEq, Repr

/-- Go `httpguts.IsTokenRune`: the bytes allowed in an HTTP token. -/
def isTokenRune (r : Char) : Bool :=
  decide (r.toNat < 128) &&
  decide (('0' ≤ r ∧ r ≤ '9') ∨ ('a' ≤ r ∧ r ≤ 'z') ∨ ('A' ≤ r ∧ r ≤ 'Z')
    ∨ r ∈ ['!', '#', '$', '%', '&', Char.ofNat 39, '*', '+', '-', '.', '^', '_', Char.ofNat 96,
        '|', '~'])

/-- Go `validMethod(method)`: a non-empty HTTP token. -/
def validMethod (method : Str) : Bool := decide (0 < method.length) && method.all isTokenRune

/-- Go `removeEmptyPort(host)`: a host that ends in a `:` with no port after it
loses that `:`. -/
def removeEmptyPort (host : Str) : Str :=
  if strings_LastIndex host [':'] > strings_LastIndex host [']'] ∧ strings_HasSuffix host [':']
  then host.take (host.length - 1) else host

/-- The fields of Go `http.Request` that `http.NewRequest` fills from its
arguments. -/
structure Request where
  Method : Str
  URL : URL
  Body : Str
  deriving DecidableEq, Repr

/-- Go `http.NewRequest(method, url, body)`: fails on a method that is no HTTP
token and on a URL that `url.Parse` rejects. -/
def http_NewRequest (method url body : Str) : Except GoError Request :=
  let method := if method = [] then "GET".toList else method
  if !validMethod method then .error (.invalidMethod method)
  else
    match url_Parse url with
    | .error e => .error (.url e)
    | .ok u => .ok { Method := method, URL := { u with Host := removeEmptyPort u.Host }, Body := body }

/-! ## The program -/

/-- Go `Endpoint` (main.go, lines 16-22). -/
structure Endpoint where
  Name : Str := []
  URL : Str
  Method : Str := []
  Headers : List (Str × Str) := []
  Body : Str := []
  deriving DecidableEq, Repr

/-- Go `DomainStats` (lines 24-27). The two counters are Go `int`s; a counter
that starts at zero and grows by one per probe stays in the range of `int`, so
the counters are integers here, and the product of line 120 is reduced to the
range of `int` by `wrapInt64`. -/
structure DomainStats where
  Success : Int := 0
  Total : Int := 0
  deriving DecidableEq, Repr

/-- The table `stats` (line 29), a Go `map[string]*DomainStats`: the list of
its keys, each with the record its pointer leads to. -/
abbrev StatsTable := List (Str × DomainStats)

/-- Read `stats[domain]`: `none` stands for the `nil` a missing key gives. -/
def lookup (stats : StatsTable) (domain : Str) : Option DomainStats :=
  match stats with
  | [] => none
  | (k, v) :: rest => if k = domain then some v else lookup rest domain

/-- Write `stats[domain] = v`: the entry of `domain` is replaced, or added when
the key is new. -/
def assign (stats : StatsTable) (domain : Str) (v : DomainStats) : StatsTable :=
  match stats with
  | [] => [(domain, v)]
  | (k, w) :: rest => if k = domain then (k, v) :: rest else (k, w) :: assign rest domain v

/-- A write through the pointer `stats[domain]`: the record of `domain` is
replaced by `f` of it. -/
def update (stats : StatsTable) (domain : Str) (f : DomainStats → DomainStats) : StatsTable :=
  match stats with
  | [] => []
  | (k, w) :: rest => if k = domain then (k, f w) :: rest else (k, w) :: update rest domain f

/-- Go `extractDomain` (lines 82-92): both results, the domain and the error;
`none` stands for a `nil` error. -/
def extractDomain (rawURL : Str) : Str × Option GoError :=
  match url_Parse rawURL with
  | .error err => ([], some (.url err))
  | .ok u =>
    let host := u.Host
    let idx := strings_Index host [':']
    if idx ≠ -1 then (host.take idx.toNat, none) else (host, none)

/-- The method `CheckHealth` sends (lines 34-37). -/
def effectiveMethod (unicodeUpper : Str → Str) (endpoint : Endpoint) : Str :=
  let method := strings_ToUpper unicodeUpper endpoint.Method
  if method = [] then "GET".toList else method

/-- The request body `CheckHealth` sends (lines 40-43). -/
def requestBody (unicodeUpper : Str → Str) (endpoint : Endpoint) : Str :=
  let method := effectiveMethod unicodeUpper endpoint
  if method = "POST".toList ∨ method = "PUT".toList ∨ method = "PATCH".toList
  then endpoint.Body else []

/-- Go `http.Response`, as far as the program reads it. -/
structure Response where
  StatusCode : Int
  deriving DecidableEq, Repr

/-- What the dispatch of one request gives `CheckHealth` (lines 58-60): the
two results of `client.Do` and the measured duration, in nanoseconds. -/
structure Dispatch where
  resp : Option Response
  err : Option GoError
  duration : Int
  deriving DecidableEq, Repr

/-- Go `time.Millisecond`, in nanoseconds. -/
def time_Millisecond : Int := 1000000

/-- The condition of line 71, on the values of `err`, `resp` and `duration`
at that line. -/
def healthTest (err : Option GoError) (resp : Option Response) (duration : Int) : Bool :=
  decide (err = none) &&
    match resp with
    | none => false
    | some r =>
      decide (r.StatusCode ≥ 200) && decide (r.StatusCode < 300)
        && decide (duration ≤ 500 * time_Millisecond)

/-- What `http.Client.Do` returns (package `net/http`): a response with no
error, or an error with no response, or, when a redirect is refused, an error
together with the redirect response, whose status is 301, 302, 303, 307 or
308. A response that the transport hands over with an error is dropped. This
is the condition on a `Dispatch` that both results are present only in the
redirect case. -/
def DoContract (net : Dispatch) : Prop :=
  ∀ e r, net.err = some e → net.resp = some r → r.StatusCode ∈ [301, 302, 303, 307, 308]

/-- The health rule in the words of the specification (section 4.3): no
transport error, a status code received, `200 ≤ statusCode < 300` and a
latency of at most 500 ms. -/
def healthRule (net : Dispatch) : Prop :=
  net.err = none ∧ ∃ r, net.resp = some r ∧ 200 ≤ r.StatusCode ∧ r.StatusCode < 300
    ∧ net.duration ≤ 500 * time_Millisecond

/-- The recording step of `CheckHealth` (lines 66-73); `healthy` is the value
of the condition of line 71. -/
def record (stats : StatsTable) (domain : Str) (healthy : Bool) : StatsTable :=
  let stats := if lookup stats domain = none then assign stats domain {} else stats
  let stats := update stats domain (fun s => { s with Total := s.Total + 1 })
  if healthy then update stats domain (fun s => { s with Success := s.Success + 1 }) else stats

set_option linter.unusedVariables false in
/-- Go `CheckHealth` (lines 31-80) as a function of the table before the call,
the endpoint and the result `net` of the dispatch; it gives the table after the
call. The variable `err` that receives the error of `client.Do` (line 59) is
assigned again by `extractDomain` (line 62) before line 71 reads it. -/
def CheckHealth (unicodeUpper : Str → Str) (stats : StatsTable) (endpoint : Endpoint)
    (net : Dispatch) : StatsTable :=
  let method := effectiveMethod unicodeUpper endpoint
  let reqBody := requestBody unicodeUpper endpoint
  match http_NewRequest method endpoint.URL reqBody with
  | .error err => stats
  | .ok req =>
    let (resp, err) := (net.resp, net.err)
    let duration := net.duration
    let (domain, err) := extractDomain endpoint.URL
    record stats domain (healthTest err resp duration)

/-- Go `int` arithmetic where `int` is 64 bits wide: the result of an
operation is reduced modulo `2^64` to the range `-2^63 .. 2^63 - 1`. -/
def wrapInt64 (x : Int) : Int := (x + 2 ^ 63) % 2 ^ 64 - 2 ^ 63

/-- The percentage `logResults` prints for one record (lines 118-121): the
product `100 * stat.Success` is computed in `int` and wraps around, and Go's
integer division truncates toward zero. -/
def percentage (stat : DomainStats) : Int :=
  if stat.Total > 0 then Int.tdiv (wrapInt64 (100 * stat.Success)) stat.Total else 0

/-- Go `logResults` (lines 115-124): for each entry of the table, the domain
and the percentage of the line it prints. -/
def logResults (stats : StatsTable) : List (Str × Int) :=
  stats.map (fun entry => (entry.1, percentage entry.2))

/-- The first loop of `monitorEndpoints` (lines 95-104): the table it leaves,
and whether it ran to its end (`false` when line 99 returned). -/
def preRegister (stats : StatsTable) : List Endpoint → StatsTable × Bool
  | [] => (stats, true)
  | endpoint :: rest =>
    match extractDomain endpoint.URL with
    | (_, some _) => (stats, false)
    | (domain, none) =>
      preRegister (if lookup stats domain = none then assign stats domain {} else stats) rest

/-- The inner loop of `monitorEndpoints` (lines 107-109): one probe of every
endpoint, in order; `net i` is the dispatch result for the endpoint at
position `i`, and the first endpoint of the list is at position `i0`. -/
def probeAll (unicodeUpper : Str → Str) (net : Nat → Dispatch) (stats : StatsTable) :
    List Endpoint → Nat → StatsTable
  | [], _ => stats
  | endpoint :: rest, i0 =>
    probeAll unicodeUpper net (CheckHealth unicodeUpper stats endpoint (net i0)) rest (i0 + 1)

/-- What is seen of a run of `monitorEndpoints`: whether it returned, the
table, the endpoints `CheckHealth` was called on, in order, and the output of
each call of `logResults`. -/
structure Run where
  returned : Bool
  stats : StatsTable
  probed : List Endpoint
  reports : List (List (Str × Int))
  deriving DecidableEq, Repr

/-- The endless loop of `monitorEndpoints` (lines 106-112), watched for
`cycles` more cycles from cycle number `c`; `world c i` is the dispatch result
for the endpoint at position `i` in cycle `c`. -/
def cyclesFrom (unicodeUpper : Str → Str) (world : Nat → Nat → Dispatch)
    (endpoints : List Endpoint) (run : Run) (c : Nat) : Nat → Run
  | 0 => run
  | cycles + 1 =>
    let stats := probeAll unicodeUpper (world c) run.stats endpoints 0
    cyclesFrom unicodeUpper world endpoints
      { run with stats := stats, probed := run.probed ++ endpoints,
                 reports := run.reports ++ [logResults stats] } (c + 1) cycles

/-- Go `monitorEndpoints` (lines 94-113), watched until it returns or has
completed `cycles` cycles of its endless loop. -/
def monitorEndpoints (unicodeUpper : Str → Str) (world : Nat → Nat → Dispatch)
    (stats : StatsTable) (endpoints : List Endpoint) (cycles : Nat) : Run :=
  match preRegister stats endpoints with
  | (stats, false) => { returned := true, stats := stats, probed := [], reports := [] }
  | (stats, true) =>
    cyclesFrom unicodeUpper world endpoints
      { returned := false, stats := stats, probed := [], reports := [] } 0 cycles

/-- One step of a history of the table: the pre-registration of one endpoint
at startup, or one probe with its dispatch result. -/
inductive Event where
  | register (endpoint : Endpoint)
  | probe (endpoint : Endpoint) (net : Dispatch)
  deriving DecidableEq, Repr

/-- The table after one event. -/
def applyEvent (unicodeUpper : Str → Str) (stats : StatsTable) : Event → StatsTable
  | .register endpoint => (preRegister stats [endpoint]).1
  | .probe endpoint net => CheckHealth unicodeUpper stats endpoint net

/-- The table after a history of events. -/
def applyEvents (unicodeUpper : Str → Str) (stats : StatsTable) (events : List Event) :
    StatsTable :=
  events.foldl (applyEvent unicodeUpper) stats

/-- The invariant of the table: in every entry, `0 ≤ Success ≤ Total`. -/
def CountsOrdered (stats : StatsTable) : Prop :=
  ∀ entry ∈ stats, 0 ≤ entry.2.Success ∧ entry.2.Success ≤ entry.2.Total

/-! ## Concrete inputs of the examples -/

/-- An endpoint with a valid URL and no method. -/
def healthEndpoint : Endpoint := { URL := "https://example.com/health".toList }

/-- An endpoint with method `post` and body `x`. -/
def postEndpoint : Endpoint :=
  { URL := "https://example.com/".toList, Method := "post".toList, Body := "x".toList }

/-- An endpoint whose method, `ge t`, is no HTTP token. -/
def badMethodEndpoint : Endpoint :=
  { URL := "https://example.com/".toList, Method := "ge t".toList }

/-- A dispatch result with a response of the given status and no error, after
`ms` milliseconds. -/
def responded (status ms : Int) : Dispatch :=
  { resp := some { StatusCode := status }, err := none, duration := ms * time_Millisecond }

/-- A dispatch result with an error and no response, after `ms` milliseconds. -/
def failed (ms : Int) : Dispatch :=
  { resp := none, err := some (.transport "connection refused".toList),
    duration := ms * time_Millisecond }

/-- A dispatch result of a refused redirect: the response with status 302 and
an error, after `ms` milliseconds. -/
def redirectRefused (ms : Int) : Dispatch :=
  { resp := some { StatusCode := 302 }, err := some (.transport "redirect refused".toList),
    duration := ms * time_Millisecond }

/-- A record whose `100 * Success` is just above the largest `int`. -/
def hugeStats : DomainStats := { Success := 92233720368547759, Total := 92233720368547759 }

/-- A dispatch result with a response of status 200 and no error, after 10 ms. -/
def okFast : Dispatch :=
  { resp := some { StatusCode := 200 }, err := none, duration := 10 * time_Millisecond }

/-- An endpoint on the domain `a.test`. -/
def endpointA : Endpoint := { URL := "https://a.test/".toList }

/-- An endpoint whose URL has a blank in its host, which `url.Parse` rejects. -/
def badUrlEndpoint : Endpoint := { URL := "http://bad host.test/".toList }

/-- An endpoint on the domain `b.test`. -/
def endpointB : Endpoint := { URL := "https://b.test:8443/status".toList }

/-! ## The table: reads after writes -/

theorem lookup_assign_self (stats : StatsTable) (d : Str) (v : DomainStats) :
    lookup (assign stats d v) d = some v := by
  induction stats with
  | nil => simp [assign, lookup]
  | cons hd tl ih =>
    obtain ⟨k, w⟩ := hd
    by_cases h : k = d
    · simp [assign, lookup, h]
    · simp [assign, lookup, h, ih]

theorem lookup_assign_ne (stats : StatsTable) (d d2 : Str) (v : DomainStats) (hne : d2 ≠ d) :
    lookup (assign stats d v) d2 = lookup stats d2 := by
  induction stats with
  | nil => simp [assign, lookup, Ne.symm hne]
  | cons hd tl ih =>
    obtain ⟨k, w⟩ := hd
    by_cases h : k = d
    · subst h
      simp [assign, lookup, Ne.symm hne]
    · by_cases h2 : k = d2
      · subst h2
        simp [assign, lookup, hne]
      · simp [assign, lookup, h, h2, ih]

theorem lookup_update_self (stats : StatsTable) (d : Str) (f : DomainStats → DomainStats) :
    lookup (update stats d f) d = (lookup stats d).map f := by
  induction stats with
  | nil => simp [update, lookup]
  | cons hd tl ih =>
    obtain ⟨k, w⟩ := hd
    by_cases h : k = d
    · simp [update, lookup, h]
    · simp [update, lookup, h, ih]

theorem lookup_update_ne (stats : StatsTable) (d d2 : Str) (f : DomainStats → DomainStats)
    (hne : d2 ≠ d) : lookup (update stats d f) d2 = lookup stats d2 := by
  induction stats with
  | nil => simp [update, lookup]
  | cons hd tl ih =>
    obtain ⟨k, w⟩ := hd
    by_cases h : k = d
    · subst h
      simp [update, lookup, Ne.symm hne]
    · by_cases h2 : k = d2
      · subst h2
        simp [update, lookup, hne]
      · simp [update, lookup, h, h2, ih]

theorem mem_assign (stats : StatsTable) (d : Str) (v : DomainStats) (entry : Str × DomainStats)
    (h : entry ∈ assign stats d v) : entry ∈ stats ∨ entry = (d, v) := by
  induction stats with
  | nil => simpa [assign] using h
  | cons hd tl ih =>
    obtain ⟨k, w⟩ := hd
    by_cases hk : k = d
    · subst hk
      simp only [assign, if_true, List.mem_cons] at h
      rcases h with h | h
      · exact Or.inr h
      · exact Or.inl (List.mem_cons_of_mem _ h)
    · simp only [assign, hk, if_false, List.mem_cons] at h
      rcases h with h | h
      · exact Or.inl (h ▸ List.mem_cons_self _ _)
      · rcases ih h with h2 | h2
        · exact Or.inl (List.mem_cons_of_mem _ h2)
        · exact Or.inr h2

theorem mem_update (stats : StatsTable) (d : Str) (f : DomainStats → DomainStats)
    (entry : Str × DomainStats) (h : entry ∈ update stats d f) :
    entry ∈ stats ∨ ∃ w, (d, w) ∈ stats ∧ entry = (d, f w) := by
  induction stats with
  | nil => simp [update] at h
  | cons hd tl ih =>
    obtain ⟨k, w⟩ := hd
    by_cases hk : k = d
    · subst hk
      simp only [update, if_true, List.mem_cons] at h
      rcases h with h | h
      · exact Or.inr ⟨w, List.mem_cons_self _ _, h⟩
      · exact Or.inl (List.mem_cons_of_mem _ h)
    · simp only [update, hk, if_false, List.mem_cons] at h
      rcases h with h | h
      · exact Or.inl (h ▸ List.mem_cons_self _ _)
      · rcases ih h with h2 | ⟨w2, hw2, he⟩
        · exact Or.inl (List.mem_cons_of_mem _ h2)
        · exact Or.inr ⟨w2, List.mem_cons_of_mem _ hw2, he⟩

theorem update_update (stats : StatsTable) (d : Str) (f g : DomainStats → DomainStats) :
    update (update stats d f) d g = update stats d (fun s => g (f s)) := by
  induction stats with
  | nil => simp [update]
  | cons hd tl ih =>
    obtain ⟨k, w⟩ := hd
    by_cases hk : k = d
    · simp [update, hk]
    · simp [update, hk, ih]

/-! ## The recording step -/

theorem lookup_record_self (stats : StatsTable) (d : Str) (healthy : Bool) :
    lookup (record stats d healthy) d =
      some { Success := ((lookup stats d).getD {}).Success + (if healthy then 1 else 0),
             Total := ((lookup stats d).getD {}).Total + 1 } := by
  cases h : lookup stats d <;> cases healthy <;>
    simp [record, h, lookup_update_self, lookup_assign_self]

theorem lookup_record_ne (stats : StatsTable) (d d2 : Str) (healthy : Bool) (hne : d2 ≠ d) :
    lookup (record stats d healthy) d2 = lookup stats d2 := by
  cases h : lookup stats d <;> cases healthy <;>
    simp [record, h, lookup_update_ne _ _ _ _ hne, lookup_assign_ne _ _ _ _ hne]

theorem countsOrdered_assign_zero (stats : StatsTable) (d : Str) (h : CountsOrdered stats) :
    CountsOrdered (assign stats d {}) := by
  intro entry hmem
  rcases mem_assign _ _ _ _ hmem with h1 | h1
  · exact h entry h1
  · subst h1
    exact ⟨le_refl _, le_refl _⟩

theorem countsOrdered_update (stats : StatsTable) (d : Str) (f : DomainStats → DomainStats)
    (hf : ∀ w : DomainStats, 0 ≤ w.Success ∧ w.Success ≤ w.Total →
      0 ≤ (f w).Success ∧ (f w).Success ≤ (f w).Total)
    (h : CountsOrdered stats) : CountsOrdered (update stats d f) := by
  intro entry hmem
  rcases mem_update _ _ _ _ hmem with h1 | ⟨w, hw, he⟩
  · exact h entry h1
  · subst he
    exact hf w (h (d, w) hw)

theorem countsOrdered_record (stats : StatsTable) (d : Str) (healthy : Bool)
    (h : CountsOrdered stats) : CountsOrdered (record stats d healthy) := by
  have h1 : CountsOrdered (if lookup stats d = none then assign stats d {} else stats) := by
    split
    · exact countsOrdered_assign_zero _ _ h
    · exact h
  unfold record
  cases healthy
  · simp only [Bool.false_eq_true, if_false]
    refine countsOrdered_update _ _ _ ?_ h1
    intro w hw
    simp only
    omega
  · simp only [if_true, update_update]
    refine countsOrdered_update _ _ _ ?_ h1
    intro w hw
    simp only
    omega

theorem CheckHealth_built (unicodeUpper : Str → Str) (stats : StatsTable)
    (endpoint : Endpoint) (net : Dispatch) (req : Request)
    (hreq : http_NewRequest (effectiveMethod unicodeUpper endpoint) endpoint.URL
      (requestBody unicodeUpper endpoint) = .ok req) :
    CheckHealth unicodeUpper stats endpoint net =
      record stats (extractDomain endpoint.URL).1
        (healthTest (extractDomain endpoint.URL).2 net.resp net.duration) := by
  unfold CheckHealth
  simp only [hreq]

theorem CheckHealth_not_built (unicodeUpper : Str → Str) (stats : StatsTable)
    (endpoint : Endpoint) (net : Dispatch) (e : GoError)
    (hreq : http_NewRequest (effectiveMethod unicodeUpper endpoint) endpoint.URL
      (requestBody unicodeUpper endpoint) = .error e) :
    CheckHealth unicodeUpper stats endpoint net = stats := by
  unfold CheckHealth
  simp only [hreq]

theorem countsOrdered_CheckHealth (unicodeUpper : Str → Str) (stats : StatsTable)
    (endpoint : Endpoint) (net : Dispatch) (h : CountsOrdered stats) :
    CountsOrdered (CheckHealth unicodeUpper stats endpoint net) := by
  cases hreq : http_NewRequest (effectiveMethod unicodeUpper endpoint) endpoint.URL
      (requestBody unicodeUpper endpoint) with
  | error e =>
    rw [CheckHealth_not_built _ _ _ _ e hreq]
    exact h
  | ok req =>
    rw [CheckHealth_built _ _ _ _ req hreq]
    exact countsOrdered_record _ _ _ h

theorem countsOrdered_preRegister (stats : StatsTable) (endpoints : List Endpoint)
    (h : CountsOrdered stats) : CountsOrdered (preRegister stats endpoints).1 := by
  induction endpoints generalizing stats with
  | nil => exact h
  | cons e rest ih =>
    unfold preRegister
    split
    · exact h
    · apply ih
      split
      · exact countsOrdered_assign_zero _ _ h
      · exact h

theorem countsOrdered_probeAll (unicodeUpper : Str → Str) (net : Nat → Dispatch)
    (stats : StatsTable) (endpoints : List Endpoint) (i0 : Nat) (h : CountsOrdered stats) :
    CountsOrdered (probeAll unicodeUpper net stats endpoints i0) := by
  induction endpoints generalizing stats i0 with
  | nil => exact h
  | cons e rest ih => exact ih _ _ (countsOrdered_CheckHealth _ _ _ _ h)

theorem countsOrdered_cyclesFrom (unicodeUpper : Str → Str) (world : Nat → Nat → Dispatch)
    (endpoints : List Endpoint) (run : Run) (c cycles : Nat) (h : CountsOrdered run.stats) :
    CountsOrdered (cyclesFrom unicodeUpper world endpoints run c cycles).stats := by
  induction cycles generalizing run c with
  | zero => exact h
  | succ n ih => exact ih _ _ (countsOrdered_probeAll _ _ _ _ _ h)

theorem countsOrdered_applyEvents (unicodeUpper : Str → Str) (stats : StatsTable)
    (events : List Event) (h : CountsOrdered stats) :
    CountsOrdered (applyEvents unicodeUpper stats events) := by
  induction events generalizing stats with
  | nil => exact h
  | cons ev rest ih =>
    apply ih
    cases ev with
    | register e => exact countsOrdered_preRegister _ _ h
    | probe e net => exact countsOrdered_CheckHealth _ _ _ _ h

/-- C2: starting from the empty table, after any finite history of startup
pre-registrations and probes, with any endpoints and any dispatch results,
every entry of the table has `0 ≤ Success ≤ Total`; the same holds of the table
of `monitorEndpoints` after any number of cycles. -/
theorem stats_success_le_total (unicodeUpper : Str → Str) (events : List Event)
    (world : Nat → Nat → Dispatch) (endpoints : List Endpoint) (cycles : Nat) :
    CountsOrdered (applyEvents unicodeUpper [] events)
      ∧ CountsOrdered (monitorEndpoints unicodeUpper world [] endpoints cycles).stats := by
  have h0 : CountsOrdered ([] : StatsTable) := by
    intro entry hmem
    cases hmem
  refine ⟨countsOrdered_applyEvents _ _ _ h0, ?_⟩
  unfold monitorEndpoints
  have hp := countsOrdered_preRegister [] endpoints h0
  split
  · next st heq =>
    rw [heq] at hp
    exact hp
  · next st heq =>
    rw [heq] at hp
    exact countsOrdered_cyclesFrom _ _ _ _ _ _ hp

/-- C4: the recording step for domain `d` leaves `d` with `Total` one higher
and `Success` higher by one exactly when the outcome is healthy, counting from
`(0, 0)` when `d` had no entry; the entry of every other domain is unchanged
and no key is removed. `CheckHealth`, once the request is built, is this step
for the extracted domain. -/
theorem record_frame (stats : StatsTable) (d : Str) (healthy : Bool) :
    lookup (record stats d healthy) d =
        some { Success := ((lookup stats d).getD { Success := 0, Total := 0 }).Success
                 + (if healthy then 1 else 0),
               Total := ((lookup stats d).getD { Success := 0, Total := 0 }).Total + 1 }
      ∧ (∀ d2, d2 ≠ d → lookup (record stats d healthy) d2 = lookup stats d2)
      ∧ (∀ d2, (lookup stats d2).isSome → (lookup (record stats d healthy) d2).isSome)
      ∧ (∀ (unicodeUpper : Str → Str) (endpoint : Endpoint) (net : Dispatch) (req : Request),
          http_NewRequest (effectiveMethod unicodeUpper endpoint) endpoint.URL
              (requestBody unicodeUpper endpoint) = .ok req →
          (extractDomain endpoint.URL).1 = d →
          ∃ h : Bool, CheckHealth unicodeUpper stats endpoint net = record stats d h) := by
  refine ⟨lookup_record_self _ _ _, fun d2 hne => lookup_record_ne _ _ _ _ hne, ?_, ?_⟩
  · intro d2 hs
    by_cases hd : d2 = d
    · subst hd
      rw [lookup_record_self]
      rfl
    · rw [lookup_record_ne _ _ _ _ hd]
      exact hs
  · intro unicodeUpper endpoint net req hreq hd
    refine ⟨healthTest (extractDomain endpoint.URL).2 net.resp net.duration, ?_⟩
    rw [CheckHealth_built _ _ _ _ req hreq, hd]

theorem wrapInt64_of_fits (x : Int) (h0 : 0 ≤ x) (h1 : x < 2 ^ 63) : wrapInt64 x = x := by
  unfold wrapInt64
  omega

/-- C3, as the code has it: for a record with non-negative counts whose
product `100 * Success` fits Go's `int` (below `2^63`), the percentage of
`logResults` is `floor (100 * Success / Total)` when `Total > 0` and `0` when
`Total = 0`; it truncates: `1/3` gives `33`, `2/3` gives `66`, `1/2` gives
`50`. -/
theorem percentage_floor (stat : DomainStats) (hS : 0 ≤ stat.Success) (hT : 0 ≤ stat.Total)
    (hB : 100 * stat.Success < 2 ^ 63) :
    (0 < stat.Total → percentage stat = ⌊(100 * (stat.Success : ℚ)) / (stat.Total : ℚ)⌋)
      ∧ (stat.Total = 0 → percentage stat = 0)
      ∧ (∀ (stats : StatsTable) (domain : Str), (domain, stat) ∈ stats →
          (domain, percentage stat) ∈ logResults stats)
      ∧ percentage { Success := 1, Total := 3 } = 33
      ∧ percentage { Success := 2, Total := 3 } = 66
      ∧ percentage { Success := 1, Total := 2 } = 50 := by
  refine ⟨?_, ?_, ?_, by decide, by decide, by decide⟩
  · intro hpos
    obtain ⟨n, hn⟩ := Int.eq_ofNat_of_zero_le hT
    have h1 : percentage stat = (100 * stat.Success) / stat.Total := by
      unfold percentage
      rw [if_pos hpos, wrapInt64_of_fits _ (by omega) hB]
      exact Int.tdiv_eq_ediv (by omega) hT
    rw [h1, hn]
    have h2 := Rat.floor_intCast_div_natCast (100 * stat.Success) n
    push_cast at h2
    rw [← h2]
    norm_cast
  · intro h0
    unfold percentage
    rw [if_neg (by omega)]
  · intro stats domain hmem
    unfold logResults
    exact List.mem_map.mpr ⟨(domain, stat), hmem, rfl⟩

/-- Witness of C3 as amended, at the record `(1, 3)`. -/
theorem percentage_floor_witness :
    percentage { Success := 1, Total := 3 } = ⌊(100 * ((1 : ℤ) : ℚ)) / ((3 : ℤ) : ℚ)⌋ :=
  (percentage_floor { Success := 1, Total := 3 } (by decide) (by decide) (by decide)).1
    (by decide)

/-- C3, counterexample: the record with `Success = Total = 92233720368547759`
has non-negative counts and `floor (100 * Success / Total) = 100`, but
`100 * Success` is above the largest `int`, the product wraps around and the
percentage of `logResults` is `-99`. -/
theorem percentage_wraps :
    0 ≤ hugeStats.Success ∧ 0 < hugeStats.Total
      ∧ ⌊(100 * (hugeStats.Success : ℚ)) / (hugeStats.Total : ℚ)⌋ = 100
      ∧ percentage hugeStats = -99 := by
  refine ⟨by decide, by decide, ?_, by decide⟩
  have h : (100 * (hugeStats.Success : ℚ)) / (hugeStats.Total : ℚ) = ((100 : ℤ) : ℚ) := by
    simp only [hugeStats]
    norm_num
  rw [h, Int.floor_intCast]

/-! ## The probe: request preparation and the health test -/

theorem strings_ToUpper_eq_nil (unicodeUpper : Str → Str)
    (hU : ∀ s : Str, s ≠ [] → unicodeUpper s ≠ []) (s : Str) :
    strings_ToUpper unicodeUpper s = [] ↔ s = [] := by
  unfold strings_ToUpper
  constructor
  · intro h
    by_contra hne
    split at h
    · exact hne (List.map_eq_nil_iff.mp h)
    · exact hU s hne h
  · intro h
    subst h
    rfl

theorem effectiveMethod_ne_nil (unicodeUpper : Str → Str) (endpoint : Endpoint) :
    effectiveMethod unicodeUpper endpoint ≠ [] := by
  unfold effectiveMethod
  simp only
  split
  · decide
  · assumption

theorem http_NewRequest_fields (method url body : Str) (req : Request) (hm : method ≠ [])
    (h : http_NewRequest method url body = .ok req) : req.Method = method ∧ req.Body = body := by
  unfold http_NewRequest at h
  simp only [hm, if_false] at h
  split at h
  · cases h
  · split at h
    · cases h
    · cases h
      exact ⟨rfl, rfl⟩

/-- What line 71 tests: no error from `extractDomain`, a response, a status in
`200..299` and a duration of at most 500 ms. -/
theorem healthTest_eq_true_iff (err : Option GoError) (resp : Option Response)
    (duration : Int) :
    healthTest err resp duration = true ↔
      err = none ∧ ∃ r, resp = some r ∧ 200 ≤ r.StatusCode ∧ r.StatusCode < 300
        ∧ duration ≤ 500 * time_Millisecond := by
  cases resp with
  | none => simp [healthTest]
  | some r => simp [healthTest, and_assoc]

/-- C8: the method `CheckHealth` sends is the upper-cased spec method, or `GET`
when the spec method is empty; the body it sends is the spec body when that
method is `POST`, `PUT` or `PATCH` and empty for every other method; the
request built carries that method and that body. A spec method `post` sends
the body; `GET` or an empty method with a body sends none. -/
theorem method_and_body (unicodeUpper : Str → Str)
    (hU : ∀ s : Str, s ≠ [] → unicodeUpper s ≠ []) (endpoint : Endpoint) :
    effectiveMethod unicodeUpper endpoint =
        (if endpoint.Method = [] then "GET".toList
         else strings_ToUpper unicodeUpper endpoint.Method)
      ∧ (effectiveMethod unicodeUpper endpoint ∈ ["POST".toList, "PUT".toList, "PATCH".toList] →
          requestBody unicodeUpper endpoint = endpoint.Body)
      ∧ (effectiveMethod unicodeUpper endpoint ∉ ["POST".toList, "PUT".toList, "PATCH".toList] →
          requestBody unicodeUpper endpoint = [])
      ∧ (∀ req, http_NewRequest (effectiveMethod unicodeUpper endpoint) endpoint.URL
            (requestBody unicodeUpper endpoint) = .ok req →
          req.Method = effectiveMethod unicodeUpper endpoint
            ∧ req.Body = requestBody unicodeUpper endpoint)
      ∧ (∀ (url body : Str),
          effectiveMethod unicodeUpper { URL := url, Method := "post".toList, Body := body }
              = "POST".toList
            ∧ requestBody unicodeUpper { URL := url, Method := "post".toList, Body := body }
              = body
            ∧ requestBody unicodeUpper { URL := url, Method := "GET".toList, Body := body } = []
            ∧ effectiveMethod unicodeUpper { URL := url, Method := [], Body := body }
              = "GET".toList
            ∧ requestBody unicodeUpper { URL := url, Method := [], Body := body } = []) := by
  refine ⟨?_, ?_, ?_, ?_, ?_⟩
  · unfold effectiveMethod
    simp only [strings_ToUpper_eq_nil unicodeUpper hU]
  · intro h
    unfold requestBody
    simp only [List.mem_cons, List.mem_singleton, List.not_mem_nil, or_false] at h
    simp only [h, if_true]
  · intro h
    unfold requestBody
    simp only [List.mem_cons, List.mem_singleton, List.not_mem_nil, or_false] at h
    simp only [h, if_false]
  · intro req hreq
    exact http_NewRequest_fields _ _ _ _ (effectiveMethod_ne_nil _ _) hreq
  · intro url body
    refine ⟨rfl, rfl, rfl, rfl, rfl⟩

/-- Witness of C8: with the identity for the Unicode mapping, the endpoint
`post https://example.com/` with body `x` sends method `POST` and body `x`. -/
theorem method_and_body_witness :
    effectiveMethod id postEndpoint = "POST".toList
      ∧ requestBody id postEndpoint = "x".toList :=
  ⟨(method_and_body id (fun _ h => h) postEndpoint).1,
   (method_and_body id (fun _ h => h) postEndpoint).2.1 (by decide)⟩

/-- C5, as the code has it: when `http.NewRequest` fails, `CheckHealth`
returns at line 49 and the table is what it was: neither `Total` nor `Success`
of any domain changes. -/
theorem CheckHealth_request_error_untouched (unicodeUpper : Str → Str) (stats : StatsTable)
    (endpoint : Endpoint) (net : Dispatch) (e : GoError)
    (hreq : http_NewRequest (effectiveMethod unicodeUpper endpoint) endpoint.URL
      (requestBody unicodeUpper endpoint) = .error e) :
    CheckHealth unicodeUpper stats endpoint net = stats :=
  CheckHealth_not_built unicodeUpper stats endpoint net e hreq

/-- Witness of C5 as amended: the method `ge t` is no HTTP token, the request
is not built and the table keeps its entry `(3, 5)`. -/
theorem CheckHealth_request_error_untouched_witness :
    CheckHealth id [("example.com".toList, { Success := 3, Total := 5 })] badMethodEndpoint
        okFast
      = [("example.com".toList, { Success := 3, Total := 5 })] :=
  CheckHealth_request_error_untouched id _ _ _ (.invalidMethod "GE T".toList) rfl

/-- C5, counterexample: the endpoint `ge t https://example.com/` fails request
construction, its domain is `example.com`, and after `CheckHealth` the `Total`
of `example.com` is still 5, not 6. -/
theorem CheckHealth_request_error_not_counted :
    http_NewRequest (effectiveMethod id badMethodEndpoint) badMethodEndpoint.URL
        (requestBody id badMethodEndpoint) = .error (.invalidMethod "GE T".toList)
    ∧ extractDomain badMethodEndpoint.URL = ("example.com".toList, none)
    ∧ lookup
        (CheckHealth id [("example.com".toList, { Success := 3, Total := 5 })]
          badMethodEndpoint okFast)
        "example.com".toList = some { Success := 3, Total := 5 }
    ∧ ¬ ((lookup
        (CheckHealth id [("example.com".toList, { Success := 3, Total := 5 })]
          badMethodEndpoint okFast)
        "example.com".toList).map (fun s => s.Total) = some (5 + 1)) :=
  ⟨rfl, rfl, rfl, by decide⟩

/-! ## The domain extractor -/

theorem strings_IndexFrom_single (c : Char) (s : Str) (i : Nat) :
    strings_IndexFrom [c] s i =
      if c ∈ s then ((i + (s.takeWhile (fun b => decide (b ≠ c))).length : Nat) : Int)
      else -1 := by
  induction s generalizing i with
  | nil => simp [strings_IndexFrom]
  | cons a rest ih =>
    by_cases hca : c = a
    · subst hca
      simp [strings_IndexFrom, List.isPrefixOf]
    · have hac : a ≠ c := fun h => hca h.symm
      have htw : (a :: rest).takeWhile (fun b => decide (b ≠ c))
          = a :: rest.takeWhile (fun b => decide (b ≠ c)) := by
        simp [List.takeWhile, hac]
      have hpre : List.isPrefixOf [c] (a :: rest) = false := by
        simp [List.isPrefixOf, hca]
      rw [strings_IndexFrom, hpre, htw, ih]
      simp only [Bool.false_eq_true, if_false, List.mem_cons, hca, false_or, List.length_cons]
      by_cases hm : c ∈ rest
      · simp only [hm, if_true]
        congr 1
        omega
      · simp only [hm, if_false]

theorem take_length_takeWhile (p : Char → Bool) (s : Str) :
    s.take (s.takeWhile p).length = s.takeWhile p := by
  induction s with
  | nil => rfl
  | cons a rest ih =>
    by_cases h : p a
    · simp [List.takeWhile, h, ih]
    · simp [List.takeWhile, h]

theorem extractDomain_of_parsed (rawURL : Str) (u : URL) (h : url_Parse rawURL = .ok u) :
    extractDomain rawURL = (u.Host.takeWhile (fun b => decide (b ≠ ':')), none) := by
  unfold extractDomain
  simp only [h, strings_Index, strings_IndexFrom_single]
  by_cases hc : ':' ∈ u.Host
  · simp only [hc, if_true, Nat.zero_add]
    rw [if_pos (by omega)]
    simp only [Int.toNat_ofNat, take_length_takeWhile]
  · simp only [hc, if_false, ne_eq, not_true_eq_false]
    congr 1
    symm
    rw [List.takeWhile_eq_self_iff]
    intro b hb
    simp only [ne_eq, decide_not, Bool.not_eq_eq_eq_not, Bool.not_true, decide_eq_false_iff_not]
    intro hbc
    exact hc (hbc ▸ hb)

theorem extractDomain_of_rejected (rawURL : Str) (e : UrlError) (h : url_Parse rawURL = .error e) :
    extractDomain rawURL = ([], some (.url e)) := by
  unfold extractDomain
  simp only [h]

/-- C9: for a URL that `url.Parse` accepts with host `h`, `extractDomain`
returns, with no error, the part of `h` before its first `:`, which is `h`
itself when `h` has no `:`; the result has no `:` and is a prefix of `h`, and
what follows it in `h` is nothing or starts with `:`. The domain of
`https://example.com:8443/x` is `example.com`. Equal inputs give equal
results. -/
theorem extractDomain_strips_port (rawURL : Str) (u : URL) (h : url_Parse rawURL = .ok u) :
    extractDomain rawURL = (u.Host.takeWhile (fun b => decide (b ≠ ':')), none)
      ∧ (':' ∉ u.Host → (extractDomain rawURL).1 = u.Host)
      ∧ ':' ∉ (extractDomain rawURL).1
      ∧ (extractDomain rawURL).1 <+: u.Host
      ∧ (∀ rest, u.Host = (extractDomain rawURL).1 ++ rest → rest = [] ∨ rest.head? = some ':')
      ∧ extractDomain "https://example.com:8443/x".toList = ("example.com".toList, none)
      ∧ (∀ other, other = rawURL → extractDomain other = extractDomain rawURL) := by
  have hd := extractDomain_of_parsed rawURL u h
  have hno : ':' ∉ u.Host.takeWhile (fun b => decide (b ≠ ':')) := by
    intro hmem
    have := List.mem_takeWhile_imp hmem
    simp at this
  refine ⟨hd, ?_, ?_, ?_, ?_, rfl, fun other ho => by rw [ho]⟩
  · intro hc
    rw [hd]
    simp only
    rw [List.takeWhile_eq_self_iff]
    intro b hb
    simp only [ne_eq, decide_not, Bool.not_eq_eq_eq_not, Bool.not_true, decide_eq_false_iff_not]
    intro hbc
    exact hc (hbc ▸ hb)
  · rw [hd]
    exact hno
  · rw [hd]
    exact List.takeWhile_prefix _
  · rw [hd]
    simp only
    intro rest hrest
    have h2 := List.takeWhile_append_dropWhile (fun b => decide (b ≠ ':')) u.Host
    have h3 : rest = u.Host.dropWhile (fun b => decide (b ≠ ':')) := by
      have h4 : u.Host.takeWhile (fun b => decide (b ≠ ':')) ++ rest
          = u.Host.takeWhile (fun b => decide (b ≠ ':'))
            ++ u.Host.dropWhile (fun b => decide (b ≠ ':')) := by
        rw [h2]
        exact hrest.symm
      exact List.append_cancel_left h4
    cases hr : rest with
    | nil => exact Or.inl rfl
    | cons a tl =>
      right
      have h5 := List.head_dropWhile_not (fun b => decide (b ≠ ':')) u.Host
        (by rw [← h3, hr]; exact List.cons_ne_nil _ _)
      have h6 : (u.Host.dropWhile (fun b => decide (b ≠ ':'))).head
          (by rw [← h3, hr]; exact List.cons_ne_nil _ _) = a := by
        simp only [← h3, hr, List.head_cons]
      rw [h6] at h5
      simp at h5
      simp [h5]

/-- Witness of C9 at `https://example.com:8443/x`, whose host is
`example.com:8443`. -/
theorem extractDomain_strips_port_witness :
    extractDomain "https://example.com:8443/x".toList
      = ("example.com:8443".toList.takeWhile (fun b => decide (b ≠ ':')), none) :=
  (extractDomain_strips_port "https://example.com:8443/x".toList
    { Scheme := "https".toList, Host := "example.com:8443".toList, Path := "/x".toList } rfl).1

/-- C10, as the code has it: `extractDomain` returns an error exactly when
`url.Parse` rejects its input, and then returns the empty string with that
error. `not a url` is accepted by `url.Parse`, as a relative reference with an
empty host: `extractDomain` returns the empty domain and no error for it.
Inputs it rejects are `:80`, `http://[::1/` and `http://bad host.test/`. -/
theorem extractDomain_error_iff (rawURL : Str) :
    ((extractDomain rawURL).2 ≠ none ↔ ∃ e, url_Parse rawURL = .error e)
      ∧ (∀ e, url_Parse rawURL = .error e → extractDomain rawURL = ([], some (.url e)))
      ∧ extractDomain "not a url".toList = ([], none)
      ∧ extractDomain ":80".toList = ([], some (.url .missingProtocolScheme))
      ∧ extractDomain "http://[::1/".toList = ([], some (.url .missingBracket))
      ∧ extractDomain "http://bad host.test/".toList
          = ([], some (.url (.invalidHost " ".toList))) := by
  refine ⟨?_, fun e he => extractDomain_of_rejected rawURL e he, rfl, rfl, rfl, rfl⟩
  cases hp : url_Parse rawURL with
  | error e =>
    rw [extractDomain_of_rejected rawURL e hp]
    simp
  | ok u =>
    rw [extractDomain_of_parsed rawURL u hp]
    simp

/-- C10, counterexample: `url.Parse` accepts `not a url`, with an empty host
and the path `not a url`, and `extractDomain` returns the empty domain with no
error. -/
theorem extractDomain_not_a_url :
    url_Parse "not a url".toList = .ok { Path := "not a url".toList }
      ∧ extractDomain "not a url".toList = ([], none)
      ∧ (extractDomain "not a url".toList).2 = none :=
  ⟨rfl, rfl, rfl⟩

/-- A URL that `http.NewRequest` accepted is one `extractDomain` accepts:
both parse it with `url.Parse`. -/
theorem extractDomain_ok_of_request (method url body : Str) (req : Request)
    (h : http_NewRequest method url body = .ok req) : (extractDomain url).2 = none := by
  cases hp : url_Parse url with
  | error e =>
    unfold http_NewRequest at h
    simp only [hp] at h
    split at h <;> split at h <;> simp at h
  | ok u => rw [extractDomain_of_parsed url u hp]

/-- Line 71 against the health rule: for a probe that reaches the recording
step, on a result `client.Do` can return, the condition of line 71 holds
exactly when the health rule does. -/
theorem healthTest_iff_healthRule (unicodeUpper : Str → Str)
    (endpoint : Endpoint) (net : Dispatch) (req : Request)
    (hreq : http_NewRequest (effectiveMethod unicodeUpper endpoint) endpoint.URL
      (requestBody unicodeUpper endpoint) = .ok req)
    (hnet : DoContract net) :
    healthTest (extractDomain endpoint.URL).2 net.resp net.duration = true ↔ healthRule net := by
  rw [healthTest_eq_true_iff, extractDomain_ok_of_request _ _ _ req hreq]
  unfold healthRule
  constructor
  · rintro ⟨-, r, hr, h1, h2, h3⟩
    refine ⟨?_, r, hr, h1, h2, h3⟩
    cases he : net.err with
    | none => rfl
    | some e =>
      have hm := hnet e r he hr
      simp only [List.mem_cons, List.mem_singleton, List.not_mem_nil, or_false] at hm
      omega
  · rintro ⟨-, h⟩
    exact ⟨rfl, h⟩

/-- C1: for every probe that reaches the recording step, on any result
`client.Do` returns, the success count of the endpoint's domain is incremented
exactly when the dispatch returned no error and a response with a status in
`200..299` arrived within 500 ms, and `Total` is incremented either way; with
a transport error it is not incremented. `(200, 499 ms)` and `(200, 500 ms)`
are healthy; `(200, 501 ms)`, `(404, 10 ms)`, a failed dispatch and a refused
redirect are not. -/
theorem CheckHealth_success_iff_healthy (unicodeUpper : Str → Str) (stats : StatsTable)
    (endpoint : Endpoint) (net : Dispatch) (req : Request)
    (hreq : http_NewRequest (effectiveMethod unicodeUpper endpoint) endpoint.URL
      (requestBody unicodeUpper endpoint) = .ok req)
    (hnet : DoContract net) :
    (healthRule net →
        lookup (CheckHealth unicodeUpper stats endpoint net) (extractDomain endpoint.URL).1 =
          some { Success := ((lookup stats (extractDomain endpoint.URL).1).getD {}).Success + 1,
                 Total := ((lookup stats (extractDomain endpoint.URL).1).getD {}).Total + 1 })
      ∧ (¬ healthRule net →
        lookup (CheckHealth unicodeUpper stats endpoint net) (extractDomain endpoint.URL).1 =
          some { Success := ((lookup stats (extractDomain endpoint.URL).1).getD {}).Success,
                 Total := ((lookup stats (extractDomain endpoint.URL).1).getD {}).Total + 1 })
      ∧ (net.err ≠ none →
        lookup (CheckHealth unicodeUpper stats endpoint net) (extractDomain endpoint.URL).1 =
          some { Success := ((lookup stats (extractDomain endpoint.URL).1).getD {}).Success,
                 Total := ((lookup stats (extractDomain endpoint.URL).1).getD {}).Total + 1 })
      ∧ lookup (CheckHealth id [] healthEndpoint (responded 200 499)) "example.com".toList
          = some { Success := 1, Total := 1 }
      ∧ lookup (CheckHealth id [] healthEndpoint (responded 200 500)) "example.com".toList
          = some { Success := 1, Total := 1 }
      ∧ lookup (CheckHealth id [] healthEndpoint (responded 200 501)) "example.com".toList
          = some { Success := 0, Total := 1 }
      ∧ lookup (CheckHealth id [] healthEndpoint (responded 404 10)) "example.com".toList
          = some { Success := 0, Total := 1 }
      ∧ lookup (CheckHealth id [] healthEndpoint (failed 10)) "example.com".toList
          = some { Success := 0, Total := 1 }
      ∧ lookup (CheckHealth id [] healthEndpoint (redirectRefused 10)) "example.com".toList
          = some { Success := 0, Total := 1 } := by
  have hiff := healthTest_iff_healthRule unicodeUpper endpoint net req hreq hnet
  have hyes : healthRule net →
      lookup (CheckHealth unicodeUpper stats endpoint net) (extractDomain endpoint.URL).1 =
        some { Success := ((lookup stats (extractDomain endpoint.URL).1).getD {}).Success + 1,
               Total := ((lookup stats (extractDomain endpoint.URL).1).getD {}).Total + 1 } := by
    intro h
    rw [CheckHealth_built _ _ _ _ req hreq, lookup_record_self, hiff.mpr h]
    rfl
  have hno : ¬ healthRule net →
      lookup (CheckHealth unicodeUpper stats endpoint net) (extractDomain endpoint.URL).1 =
        some { Success := ((lookup stats (extractDomain endpoint.URL).1).getD {}).Success,
               Total := ((lookup stats (extractDomain endpoint.URL).1).getD {}).Total + 1 } := by
    intro h
    have hf : healthTest (extractDomain endpoint.URL).2 net.resp net.duration = false := by
      cases hx : healthTest (extractDomain endpoint.URL).2 net.resp net.duration with
      | false => rfl
      | true => exact absurd (hiff.mp hx) h
    rw [CheckHealth_built _ _ _ _ req hreq, lookup_record_self, hf]
    simp
  exact ⟨hyes, hno, fun he => hno (fun hr => he hr.1), rfl, rfl, rfl, rfl, rfl, rfl⟩

/-- Witness of C1: the endpoint `https://example.com/health` and a response
with status 200 after 10 ms. -/
theorem CheckHealth_success_iff_healthy_witness :
    lookup (CheckHealth id [] healthEndpoint okFast) (extractDomain healthEndpoint.URL).1 =
      some { Success := ((lookup [] (extractDomain healthEndpoint.URL).1).getD {}).Success + 1,
             Total := ((lookup [] (extractDomain healthEndpoint.URL).1).getD {}).Total + 1 } :=
  (CheckHealth_success_iff_healthy id [] healthEndpoint okFast
    { Method := "GET".toList,
      URL := { Scheme := "https".toList, Host := "example.com".toList, Path := "/health".toList },
      Body := [] }
    rfl (by intro e r he; cases he)).1
    ⟨rfl, { StatusCode := 200 }, rfl, by decide, by decide, by decide⟩

/-- The host of `http://[::1]:8080/` is `[::1]:8080`; line 88 cuts it at its
first `:`, inside the brackets, and the domain is `[`. -/
theorem extractDomain_bracketed_host :
    extractDomain "http://[::1]:8080/".toList = ("[".toList, none) := rfl

/-! ## Startup pre-registration and the probe loop -/

theorem preRegister_cons_ok (stats : StatsTable) (e : Endpoint) (rest : List Endpoint)
    (h : (extractDomain e.URL).2 = none) :
    preRegister stats (e :: rest) =
      preRegister (if lookup stats (extractDomain e.URL).1 = none
        then assign stats (extractDomain e.URL).1 {} else stats) rest := by
  cases hx : extractDomain e.URL with
  | mk dom err =>
    rw [hx] at h
    simp only at h
    subst h
    simp only [preRegister, hx]

theorem preRegister_cons_bad (stats : StatsTable) (e : Endpoint) (rest : List Endpoint)
    (h : (extractDomain e.URL).2 ≠ none) : preRegister stats (e :: rest) = (stats, false) := by
  cases hx : extractDomain e.URL with
  | mk dom err =>
    rw [hx] at h
    cases err with
    | none => exact absurd rfl h
    | some x => simp only [preRegister, hx]

theorem preRegister_keeps (stats : StatsTable) (endpoints : List Endpoint) (d : Str)
    (v : DomainStats) (h : lookup stats d = some v) :
    lookup (preRegister stats endpoints).1 d = some v := by
  induction endpoints generalizing stats with
  | nil => exact h
  | cons e rest ih =>
    by_cases he : (extractDomain e.URL).2 = none
    · rw [preRegister_cons_ok _ _ _ he]
      apply ih
      split
      · next hnone =>
        have hne : d ≠ (extractDomain e.URL).1 := by
          intro hd
          rw [hd, hnone] at h
          cases h
        rw [lookup_assign_ne _ _ _ _ hne]
        exact h
      · exact h
    · rw [preRegister_cons_bad _ _ _ he]
      exact h

theorem preRegister_new (stats : StatsTable) (endpoints : List Endpoint) (d : Str)
    (h : lookup stats d = none) :
    lookup (preRegister stats endpoints).1 d = none
      ∨ lookup (preRegister stats endpoints).1 d = some { Success := 0, Total := 0 } := by
  induction endpoints generalizing stats with
  | nil => exact Or.inl h
  | cons e rest ih =>
    by_cases he : (extractDomain e.URL).2 = none
    · rw [preRegister_cons_ok _ _ _ he]
      split
      · by_cases hd : d = (extractDomain e.URL).1
        · right
          apply preRegister_keeps
          rw [hd]
          exact lookup_assign_self _ _ _
        · apply ih
          rw [lookup_assign_ne _ _ _ _ hd]
          exact h
      · exact ih _ h
    · rw [preRegister_cons_bad _ _ _ he]
      exact Or.inl h

theorem preRegister_append_bad (stats : StatsTable) (before : List Endpoint) (bad : Endpoint)
    (after : List Endpoint) (hb : ∀ e ∈ before, (extractDomain e.URL).2 = none)
    (hbad : (extractDomain bad.URL).2 ≠ none) :
    preRegister stats (before ++ bad :: after) = ((preRegister stats before).1, false) := by
  induction before generalizing stats with
  | nil => exact preRegister_cons_bad _ _ _ hbad
  | cons e rest ih =>
    have he := hb e (List.mem_cons_self _ _)
    rw [List.cons_append, preRegister_cons_ok _ _ _ he, preRegister_cons_ok _ _ _ he]
    exact ih _ (fun x hx => hb x (List.mem_cons_of_mem _ hx))

theorem preRegister_complete (stats : StatsTable) (endpoints : List Endpoint)
    (h : ∀ e ∈ endpoints, (extractDomain e.URL).2 = none) :
    (preRegister stats endpoints).2 = true := by
  induction endpoints generalizing stats with
  | nil => rfl
  | cons e rest ih =>
    rw [preRegister_cons_ok _ _ _ (h e (List.mem_cons_self _ _))]
    exact ih _ (fun x hx => h x (List.mem_cons_of_mem _ hx))

theorem preRegister_registers (stats : StatsTable) (endpoints : List Endpoint)
    (h : ∀ e ∈ endpoints, (extractDomain e.URL).2 = none) (e : Endpoint) (he : e ∈ endpoints) :
    (lookup (preRegister stats endpoints).1 (extractDomain e.URL).1).isSome = true := by
  induction endpoints generalizing stats with
  | nil => cases he
  | cons x rest ih =>
    rw [preRegister_cons_ok _ _ _ (h x (List.mem_cons_self _ _))]
    rcases List.mem_cons.mp he with hx | hx
    · subst hx
      have hsome : ∃ v, lookup (if lookup stats (extractDomain e.URL).1 = none
          then assign stats (extractDomain e.URL).1 {} else stats) (extractDomain e.URL).1
          = some v := by
        split
        · exact ⟨_, lookup_assign_self _ _ _⟩
        · next hn => exact Option.ne_none_iff_exists'.mp hn
      obtain ⟨v, hv⟩ := hsome
      rw [preRegister_keeps _ rest _ v hv]
      rfl
    · exact ih _ (fun y hy => h y (List.mem_cons_of_mem _ hy)) hx

/-- C7: when the domain of every configured URL extracts, the first loop of
`monitorEndpoints` runs to its end and, before the first probe, the domain of
every configured endpoint is a key of the table; an entry the loop created has
`Success = 0` and `Total = 0`, so it reports 0 percent, and an entry that
existed keeps its counts. -/
theorem preRegister_all_domains (stats : StatsTable) (endpoints : List Endpoint)
    (h : ∀ e ∈ endpoints, (extractDomain e.URL).2 = none) :
    (∀ (unicodeUpper : Str → Str) (world : Nat → Nat → Dispatch),
        monitorEndpoints unicodeUpper world stats endpoints 0 =
          { returned := false, stats := (preRegister stats endpoints).1, probed := [],
            reports := [] })
      ∧ (∀ e ∈ endpoints,
          (lookup (preRegister stats endpoints).1 (extractDomain e.URL).1).isSome = true)
      ∧ (∀ d v, lookup stats d = none → lookup (preRegister stats endpoints).1 d = some v →
          v = { Success := 0, Total := 0 } ∧ percentage v = 0)
      ∧ (∀ d v, lookup stats d = some v → lookup (preRegister stats endpoints).1 d = some v) := by
  refine ⟨?_, fun e he => preRegister_registers stats endpoints h e he, ?_,
    fun d v hv => preRegister_keeps stats endpoints d v hv⟩
  · intro unicodeUpper world
    have hc := preRegister_complete stats endpoints h
    unfold monitorEndpoints
    cases hp : preRegister stats endpoints with
    | mk st fin =>
      rw [hp] at hc
      simp only at hc
      subst hc
      rfl
  · intro d v hnone hv
    rcases preRegister_new stats endpoints d hnone with h1 | h1
    · rw [h1] at hv
      cases hv
    · rw [h1] at hv
      cases hv
      exact ⟨rfl, by decide⟩

/-- Witness of C7: the two endpoints on `a.test` and `b.test`, from the empty
table. -/
theorem preRegister_all_domains_witness :
    (lookup (preRegister [] [endpointA, endpointB]).1 (extractDomain endpointB.URL).1).isSome
      = true :=
  (preRegister_all_domains [] [endpointA, endpointB] (by decide)).2.1 endpointB (by decide)

/-- C6, as the code has it: when domain extraction fails for an endpoint
during the startup pre-registration, `monitorEndpoints` returns at line 99:
the endpoints before the first failing one are pre-registered, no later one
is, the probe loop is not entered and no endpoint is probed. -/
theorem monitorEndpoints_returns_on_extraction_error (unicodeUpper : Str → Str)
    (world : Nat → Nat → Dispatch) (stats : StatsTable) (before : List Endpoint)
    (bad : Endpoint) (after : List Endpoint) (cycles : Nat)
    (hb : ∀ e ∈ before, (extractDomain e.URL).2 = none)
    (hbad : (extractDomain bad.URL).2 ≠ none) :
    monitorEndpoints unicodeUpper world stats (before ++ bad :: after) cycles =
      { returned := true, stats := (preRegister stats before).1, probed := [], reports := [] } := by
  unfold monitorEndpoints
  rw [preRegister_append_bad stats before bad after hb hbad]

/-- Witness of C6 as amended: `a.test`, then a URL with a blank in its host,
then `b.test`. -/
theorem monitorEndpoints_returns_on_extraction_error_witness :
    monitorEndpoints id (fun _ _ => okFast) [] ([endpointA] ++ badUrlEndpoint :: [endpointB]) 2
      = { returned := true, stats := (preRegister [] [endpointA]).1, probed := [],
          reports := [] } :=
  monitorEndpoints_returns_on_extraction_error id (fun _ _ => okFast) [] [endpointA]
    badUrlEndpoint [endpointB] 2 (by decide) (by decide)

/-- C6, counterexample: with the endpoints `a.test`, a URL that `url.Parse`
rejects, and `b.test`, whose domain extracts, `monitorEndpoints` returns:
`b.test` is not pre-registered and, two cycles' time later, no endpoint has
been probed. -/
theorem monitorEndpoints_stops_at_bad_url :
    (extractDomain badUrlEndpoint.URL).2 ≠ none
      ∧ extractDomain endpointB.URL = ("b.test".toList, none)
      ∧ (monitorEndpoints id (fun _ _ => okFast) [] [endpointA, badUrlEndpoint, endpointB]
          2).returned = true
      ∧ lookup (monitorEndpoints id (fun _ _ => okFast) [] [endpointA, badUrlEndpoint, endpointB]
          2).stats "b.test".toList = none
      ∧ (monitorEndpoints id (fun _ _ => okFast) [] [endpointA, badUrlEndpoint, endpointB]
          2).probed = [] :=
  ⟨by decide, rfl, rfl, rfl, rfl⟩

end Fetch
